import Mathlib

/-!
Verification of the ModernAppTemplate workspace scripts.

This file gives a shallow embedding, in Lean 4, of the pure logic of the
repository's Python scripts:

* `scripts/find_template_violations.py` — template-drift detector
  (`evaluate_excludes`, `enumerate_template_files`, `classify_files`, and the
  reporting/summary logic of `main`);
* `scripts/push_all.py` — the push fan-out tool with its dirty pre-flight;
* `scripts/workspace.py` — the workspace repository enumerator `get_repos`;
* `scripts/changes_since_sync.py` — `get_template_version`.

Filesystem contents, git-query answers and subprocess outputs are modelled as
explicit inputs (lists of relative paths, oracle functions on paths, captured
stdout strings); the Lean definitions mirror the Python control flow on those
inputs.  Theorems about the embedded definitions then settle the specified
properties.
-/

namespace ModernAppTemplate

/-! ## Python string primitives

Helpers mirroring the exact Python string operations used by the scripts:
`str.strip`, `str.startswith`, `str.endswith`, the `in` substring test, and
slicing off a fixed-length suffix.  Strings are handled through their
character lists. -/

/-- Python whitespace for `str.strip` / regex `\s` (ASCII range). -/
def pySpace (c : Char) : Bool :=
  c = ' ' || c = '\t' || c = '\n' || c = '\r' || c = '\x0b' || c = '\x0c'

/-- Regex word character `\w` (ASCII range): letters, digits, underscore. -/
def pyWord (c : Char) : Bool :=
  c.isAlphanum || c = '_'

/-- Python `str.strip()` on a character list: drop whitespace at both ends. -/
def pyStrip (l : List Char) : List Char :=
  ((l.dropWhile pySpace).reverse.dropWhile pySpace).reverse

/-- Python `str.strip()` on a `String`. -/
def pyStripS (s : String) : String :=
  ⟨pyStrip s.data⟩

/-- Python `s.startswith(pat)`. -/
def strStartsWith (s pat : String) : Bool :=
  pat.data.isPrefixOf s.data

/-- Python `s.endswith(pat)`. -/
def strEndsWith (s pat : String) : Bool :=
  pat.data.isSuffixOf s.data

/-- Substring occurrence on character lists (Python `pat in s`). -/
def containsSub : List Char → List Char → Bool
  | [], pat => pat.isEmpty
  | s@(_ :: t), pat => pat.isPrefixOf s || containsSub t pat

/-- Python `pat in s` for strings. -/
def strContains (s pat : String) : Bool :=
  containsSub s.data pat.data

/-! ## Template file inventory (`enumerate_template_files`)

The Python function walks the template directory with `rglob`, keeps regular
files, and works on each path relative to the template directory.  The walk
itself is filesystem I/O; its result — the list of relative paths of the
regular files, in sorted order — is the `listing` input here.  The rest of the
function is embedded faithfully: paths containing an opening template
delimiter are skipped, a `.jinja` suffix marks the file as templated and is
stripped from the output path. -/

/-- The recognized template-file suffix `".jinja"`. -/
def jinjaSuffix : String := ".jinja"

/-- The literal `"{{"` (dynamically-named file marker). -/
def openBrace2 : String := "\x7b\x7b"

/-- The literal `"{%"` (template-statement marker). -/
def openBracePct : String := "\x7b%"

/-- Path separator. -/
def slash : String := "/"

/-- One enumerated template file: rendered output path, source path relative
to the template directory, and whether the source is a Jinja template
(`output_path, source_path, is_jinja` in the Python code). -/
structure TFile where
  out : String
  src : String
  isJinja : Bool
deriving DecidableEq, Repr

/-- Embedding of `enumerate_template_files`: `listing` is the sorted list of
relative paths of the regular files under the template directory.  Paths
containing `"{{"` or `"{%"` are skipped; `is_jinja = rel.endswith(".jinja")`;
the output path is `rel[:-len(".jinja")]` for Jinja files, `rel` otherwise. -/
def enumerate_template_files (listing : List String) : List TFile :=
  listing.filterMap fun rel =>
    if strContains rel openBrace2 || strContains rel openBracePct then none
    else if strEndsWith rel jinjaSuffix then some ⟨dropJinja rel, rel, true⟩
    else some ⟨rel, rel, false⟩
where
  /-- Python `rel[:-len(".jinja")]`: drop the final 6 characters. -/
  dropJinja (s : String) : String := ⟨s.data.take (s.data.length - 6)⟩

/-- Abbreviation for the suffix-stripping slice used by the enumerator. -/
def dropJinja (s : String) : String :=
  enumerate_template_files.dropJinja s

/-! ## Classification (`classify_files`) -/

/-- The test `output_path in skip_if_exists` (a Python set membership). -/
def skipHitP (skip_if_exists : List String) (out : String) : Bool :=
  skip_if_exists.contains out

/-- The test `output_path in excluded or any(output_path.startswith(e + "/")
for e in excluded)`. -/
def exclHitP (excluded : List String) (out : String) : Bool :=
  excluded.contains out || excluded.any fun e => strStartsWith out (e ++ slash)

/-- Embedding of `classify_files`: each enumerated file is routed by the
`if / elif / else` chain into exactly one of the three result collections;
the loop over `all_files` appending to three lists is expressed as three
order-preserving filters.  Returns
`(template_owned, app_owned, excluded_files)`. -/
def classify_files (listing skip_if_exists excluded : List String) :
    List TFile × List String × List String :=
  let all := enumerate_template_files listing
  ( all.filter fun f => !skipHitP skip_if_exists f.out && !exclHitP excluded f.out,
    (all.filter fun f => skipHitP skip_if_exists f.out).map TFile.out,
    (all.filter fun f => !skipHitP skip_if_exists f.out && exclHitP excluded f.out).map
      TFile.out )

/-! ## Exclusion-rule evaluation (`evaluate_excludes`)

Each `_exclude` entry is matched, after `entry.strip()`, against the anchored
regular expression

    \{%\s*if\s+not\s+(\w+)\s*%\}(.+?)\{%\s*endif\s*%\}

`re.match` anchors at the start only; trailing text is ignored.  The regex is
embedded as a deterministic character-list parser: every bounded repetition
here (`\s*` before a non-space literal, `\s+` before a non-space literal,
`\w+` before `\s*%}`) is maximal-munch-exact under backtracking, and the
non-greedy `(.+?)` takes the shortest non-empty prefix (of non-newline
characters) after which `\{%\s*endif\s*%\}` matches. -/

/-- Match a literal character-list prefix, returning the remainder. -/
def parseLit : List Char → List Char → Option (List Char)
  | [], s => some s
  | _ :: _, [] => none
  | c :: cs, d :: ds => if c = d then parseLit cs ds else none

/-- Regex `\s+`: require at least one whitespace character, consume them all. -/
def parseSpaces1 : List Char → Option (List Char)
  | [] => none
  | c :: rest => if pySpace c then some (rest.dropWhile pySpace) else none

/-- Does `\{%\s*endif\s*%\}` match at the start of `s`? -/
def checkEndif (s : List Char) : Bool :=
  match parseLit openBracePct.data s with
  | none => false
  | some s₁ =>
    match parseLit endifLit.data (s₁.dropWhile pySpace) with
    | none => false
    | some s₂ => (parseLit pctClose.data (s₂.dropWhile pySpace)).isSome
where
  /-- The literal `"endif"`. -/
  endifLit : String := "endif"
  /-- The literal `"%}"`. -/
  pctClose : String := "%\x7d"

/-- Non-greedy `(.+?)` followed by `\{%\s*endif\s*%\}`: accumulate one
non-newline character at a time, stopping at the first position where the
`endif` tail matches. -/
def scanBody (acc : List Char) : List Char → Option (List Char)
  | [] => none
  | c :: rest =>
    if c = '\n' then none
    else if checkEndif rest then some (acc ++ [c])
    else scanBody (acc ++ [c]) rest

/-- The regex match of one `_exclude` entry (after `entry.strip()`):
returns `(flag_name, raw_group2)` on success, mirroring `m.group(1)` and
`m.group(2)` of the Python pattern. -/
def matchExclude (entry : String) : Option (String × String) := do
  let s0 := pyStrip entry.data
  let s1 ← parseLit openBracePct.data s0
  let s2 ← parseLit ifLit.data (s1.dropWhile pySpace)
  let s3 ← parseSpaces1 s2
  let s4 ← parseLit notLit.data s3
  let s5 ← parseSpaces1 s4
  let flag := s5.takeWhile pyWord
  if flag.isEmpty then none else
  let s6 ← parseLit pctClose.data ((s5.dropWhile pyWord).dropWhile pySpace)
  let body ← scanBody [] s6
  some (⟨flag⟩, ⟨body⟩)
where
  /-- The literal `"if"`. -/
  ifLit : String := "if"
  /-- The literal `"not"`. -/
  notLit : String := "not"
  /-- The literal `"%}"`. -/
  pctClose : String := "%\x7d"

/-- Embedding of `evaluate_excludes`.  `excludeEntries` is the `_exclude`
list from the copier config; `answers` the app's recorded boolean feature
flags (`answers.get(flag_name, False)` is lookup with default `false`).
Entries that do not match the pattern are skipped; for matching entries the
stripped group-2 path is excluded exactly when the flag value is false. -/
def evaluate_excludes (excludeEntries : List String)
    (answers : List (String × Bool)) : List String :=
  excludeEntries.filterMap fun entry =>
    match matchExclude entry with
    | none => none
    | some (flag, body) =>
      if (answers.lookup flag).getD false then none
      else some (pyStripS body)

/-! ## Drift-detector main logic

`main` of `find_template_violations.py`, after its precondition checks and
classification, queries the filesystem and git.  Those queries are modelled by
an environment of oracles keyed exactly the way the code keys them:
`appFile out` is the content of `app_dir / output_path` (`none` when the file
does not exist), `modified out` is whether `git diff --name-only` between the
copier commit and `HEAD` is non-empty for that path, and `tmpl src` is the
content of `template_dir / source_path`. -/

/-- Oracles for one run of the drift detector. -/
structure Env where
  appFile : String → Option (List Nat)
  modified : String → Bool
  tmpl : String → List Nat

/-- `(app_dir / output_path).exists()`. -/
def fileExists (env : Env) (out : String) : Bool :=
  (env.appFile out).isSome

/-- Section 1 of `main`: output paths of template-owned files that exist in
the app and were modified since the copier commit (the `git_violations`
list, one entry per template-owned tuple, in order). -/
def gitViolations (tow : List TFile) (env : Env) : List String :=
  (tow.filter fun f => fileExists env f.out && env.modified f.out).map TFile.out

/-- Section 1 of `main`: template-owned output paths missing from the app
(the `missing` list). -/
def missingFiles (tow : List TFile) (env : Env) : List String :=
  (tow.filter fun f => !fileExists env f.out).map TFile.out

/-- `compare_to_source` divergence test for one template-owned tuple:
the app file exists, the source is not a Jinja template, and the byte
contents differ. -/
def srcDiffers (env : Env) (f : TFile) : Bool :=
  match env.appFile f.out with
  | none => false
  | some c => !f.isJinja && decide (c ≠ env.tmpl f.src)

/-- `compare_to_source` first result: the `diverged` file list. -/
def divergedFiles (tow : List TFile) (env : Env) : List String :=
  (tow.filter fun f => srcDiffers env f).map TFile.out

/-- `compare_to_source` second result: the `jinja_files` list (Jinja sources
whose rendered file exists in the app; they cannot be byte-compared). -/
def jinjaCompFiles (tow : List TFile) (env : Env) : List String :=
  (tow.filter fun f => fileExists env f.out && f.isJinja).map TFile.out

/-- `pre_existing = [d for d in diverged if d["file"] not in
git_violation_files]`. -/
def preExisting (tow : List TFile) (env : Env) : List String :=
  (divergedFiles tow env).filter fun x => !(gitViolations tow env).contains x

/-- `also_diverged = [d for d in diverged if d["file"] in
git_violation_files]` (reported as a note under the post-adoption section). -/
def alsoDiverged (tow : List TFile) (env : Env) : List String :=
  (divergedFiles tow env).filter fun x => (gitViolations tow env).contains x

/-- The Python set `violation_files = git_violation_files | {d["file"] for d
in pre_existing}`; only its membership and cardinality are used, so it is
modelled as a deduplicated list. -/
def violationFiles (tow : List TFile) (env : Env) : List String :=
  (gitViolations tow env ++ preExisting tow env).dedup

/-- The Python set `missing_set = set(missing)`. -/
def missingSet (tow : List TFile) (env : Env) : List String :=
  (missingFiles tow env).dedup

/-- `total_files = len(template_owned)`. -/
def totalFiles (tow : List TFile) : Nat :=
  tow.length

/-- `clean_count = total_files - len(violation_files) - len(missing_set)`
(Python integers: the subtraction is over `Int`). -/
def cleanCount (tow : List TFile) (env : Env) : Int :=
  (totalFiles tow : Int) - (violationFiles tow env).length - (missingSet tow env).length

/-- The list whose length is `jinja_only_count`: Jinja-comparison entries
whose file is neither a violation nor missing. -/
def jinjaOnlyList (tow : List TFile) (env : Env) : List String :=
  (jinjaCompFiles tow env).filter fun j =>
    !(violationFiles tow env).contains j && !(missingSet tow env).contains j

/-- `jinja_only_count`. -/
def jinjaOnlyCount (tow : List TFile) (env : Env) : Nat :=
  (jinjaOnlyList tow env).length

/-- The first summary line's number: `clean_count - jinja_only_count`
("template-owned files match source exactly"). -/
def matchExactCount (tow : List TFile) (env : Env) : Int :=
  cleanCount tow env - jinjaOnlyCount tow env

/-- `had_findings`: set (only) in the post-adoption section when
`git_violations` is non-empty and in the pre-existing section when
`pre_existing` is non-empty. -/
def hadFindings (tow : List TFile) (env : Env) : Bool :=
  !(gitViolations tow env).isEmpty || !(preExisting tow env).isEmpty

/-- The process exit code of `main` past the precondition checks:
`sys.exit(1)` when `had_findings`, otherwise the normal return (exit 0). -/
def exitCode (tow : List TFile) (env : Env) : Nat :=
  if hadFindings tow env then 1 else 0

/-- The five summary categories of the final report. -/
inductive DriftCat
  | matchExact
  | jinjaOnly
  | postAdoption
  | preExist
  | missing
deriving DecidableEq, Repr

/-- The category a single template-owned tuple falls into, read off the
oracle answers: missing when the app file does not exist; post-adoption when
modified since the copier commit; otherwise Jinja-unverifiable, byte-exact
match, or pre-existing divergence. -/
def category (env : Env) (f : TFile) : DriftCat :=
  match env.appFile f.out with
  | none => .missing
  | some c =>
    if env.modified f.out then .postAdoption
    else if f.isJinja then .jinjaOnly
    else if c = env.tmpl f.src then .matchExact
    else .preExist

/-- The output paths of the template-owned files that "match source exactly"
(exist in the app, unmodified since the copier commit, non-Jinja, byte-equal
to the template source) — the population the first summary count describes. -/
def matchExactFiles (tow : List TFile) (env : Env) : List String :=
  (tow.filter fun f =>
    match env.appFile f.out with
    | none => false
    | some c => !env.modified f.out && !f.isJinja && decide (c = env.tmpl f.src)).map
    TFile.out

/-- The category-`c` sublist of the template-owned output paths. -/
def catList (tow : List TFile) (env : Env) (c : DriftCat) : List String :=
  (tow.filter fun f => category env f = c).map TFile.out

/-! ## `push_all.py` -/

/-- One enumerated repository together with the captured stdout of
`git status --porcelain` run in it. -/
structure Repo where
  name : String
  path : String
  statusOut : String
deriving DecidableEq, Repr

/-- The pre-flight dirty test: `status.stdout.strip()` is non-empty. -/
def repoDirty (r : Repo) : Bool :=
  pyStripS r.statusOut ≠ ""

/-- The observable outcome of `push_all.main`: exit code, the dirty repos
reported (name, path, stripped status output), and the repos pushed. -/
structure PushOutcome where
  exit : Nat
  reportedDirty : List (String × String × String)
  pushed : List String
deriving DecidableEq, Repr

/-- Embedding of `push_all.main`: first collect the dirty repos over the whole
enumeration; if any is dirty, print them all and `sys.exit(1)` before the push
loop; otherwise push every repo in enumeration order and exit normally. -/
def push_all_main (repos : List Repo) : PushOutcome :=
  let dirty := repos.filter repoDirty
  if dirty.isEmpty then
    ⟨0, [], repos.map Repo.name⟩
  else
    ⟨1, dirty.map fun r => (r.name, r.path, pyStripS r.statusOut), []⟩

/-! ## `workspace.get_repos` -/

/-- One entry of the workspace descriptor's `folders` list: a `path` and an
optional `name`. -/
structure Folder where
  path : String
  name : Option String
deriving DecidableEq, Repr

/-- `pathlib.Path(...).name`: the final path component (the characters after
the last separator of the resolved path). -/
def pathBasename (s : String) : String :=
  ⟨s.data.foldl (fun acc c => if c = '/' then [] else acc ++ [c]) []⟩

/-- Embedding of `workspace.get_repos`.  `hasGit p` models
`(Path(p) / ".git").exists()` and `resolve` models
`(workspace_dir / folder["path"]).resolve()`.  The two fixed entries
`("frontend", "frontend")` and `("backend", "backend")` are appended first,
unconditionally; then each descriptor folder whose resolved path contains a
`.git` directory is appended as `(name-or-basename, resolved path)`, and
folders without one are skipped. -/
def get_repos (hasGit : String → Bool) (resolve : String → String)
    (folders : List Folder) : List (String × String) :=
  (frontendPair :: backendPair :: []) ++
    (folders.filter fun f => hasGit (resolve f.path)).map fun f =>
      (f.name.getD (pathBasename (resolve f.path)), resolve f.path)
where
  /-- The fixed `("frontend", "frontend")` entry. -/
  frontendPair : String × String := ("frontend", "frontend")
  /-- The fixed `("backend", "backend")` entry. -/
  backendPair : String × String := ("backend", "backend")

/-! ## `changes_since_sync.get_template_version` -/

/-- Python `str.splitlines()` on character lists, for the line separators
`\n`, `\r\n` and `\r` (a trailing separator does not produce an empty final
line; the empty string has no lines). -/
def splitlinesAux (acc : List Char) : List Char → List (List Char)
  | [] => if acc.isEmpty then [] else [acc]
  | '\r' :: '\n' :: rest => acc :: splitlinesAux [] rest
  | '\n' :: rest => acc :: splitlinesAux [] rest
  | '\r' :: rest => acc :: splitlinesAux [] rest
  | c :: rest => splitlinesAux (acc ++ [c]) rest

/-- Python `content.splitlines()`. -/
def pySplitlines (s : String) : List String :=
  (splitlinesAux [] s.data).map fun l => ⟨l⟩

/-- Python `line.split(":", 1)[1]`: everything after the first colon (empty
when the line has no colon — unreachable under the `startswith` guard). -/
def afterFirstColon (s : String) : String :=
  ⟨(s.data.dropWhile fun c => c ≠ ':').drop 1⟩

/-- The literal `"_commit:"` key prefix. -/
def commitKey : String := "_commit:"

/-- The fallback version string. -/
def unknownVersion : String := "unknown"

/-- Embedding of `get_template_version`: `content` is the text of the repo's
`.copier-answers.yml`.  The first line starting with `"_commit:"` yields the
stripped text after its first colon; otherwise `"unknown"`. -/
def get_template_version (content : String) : String :=
  match (pySplitlines content).find? (fun l => strStartsWith l commitKey) with
  | some line => pyStripS (afterFirstColon line)
  | none => unknownVersion

/-! ## Theorems -/

/-! ### `push_all.py`: pre-flight two-phase protocol (C4) -/

/-- C4: for every enumerated repository list, if the pre-flight status query
finds at least one repository with uncommitted changes then `push_all.main`
exits 1, pushes nothing, and reports every dirty repository together with its
(stripped) changed-files output; when every repository is clean it pushes all
repositories, in enumeration order, and exits 0. -/
theorem push_preflight_protocol (repos : List Repo) :
    (repos.filter repoDirty ≠ [] →
      (push_all_main repos).exit = 1 ∧
      (push_all_main repos).pushed = [] ∧
      ∀ r ∈ repos, repoDirty r = true →
        (r.name, r.path, pyStripS r.statusOut) ∈ (push_all_main repos).reportedDirty) ∧
    (repos.filter repoDirty = [] →
      (push_all_main repos).exit = 0 ∧
      (push_all_main repos).pushed = repos.map Repo.name) := by
  constructor
  · intro h
    have hne : (repos.filter repoDirty).isEmpty = false := by
      simp [List.isEmpty_iff, h]
    refine ⟨?_, ?_, ?_⟩ <;> simp only [push_all_main, hne, Bool.false_eq_true, if_false]
    intro r hr hd
    exact List.mem_map.mpr ⟨r, List.mem_filter.mpr ⟨hr, hd⟩, rfl⟩
  · intro h
    have he : (repos.filter repoDirty).isEmpty = true := by
      simp [List.isEmpty_iff, h]
    exact ⟨by simp [push_all_main, he], by simp [push_all_main, he]⟩

/-- The clean repository `A` of the pre-flight scenario. -/
def repoA : Repo := ⟨"A", "repos/a", ""⟩

/-- The dirty repository `B` of the pre-flight scenario. -/
def repoB : Repo := ⟨"B", "repos/b", " M app.py\n?? new.txt\n"⟩

/-- The clean repository `C` of the pre-flight scenario. -/
def repoC : Repo := ⟨"C", "repos/c", ""⟩

/-- C4 witness: with `B` dirty between clean `A` and `C`, the tool exits 1,
pushes no repository, and reports `B` with its changed files. -/
theorem push_preflight_protocol_witness :
    (push_all_main [repoA, repoB, repoC]).exit = 1 ∧
    (push_all_main [repoA, repoB, repoC]).pushed = [] ∧
    (repoB.name, repoB.path, pyStripS repoB.statusOut) ∈
      (push_all_main [repoA, repoB, repoC]).reportedDirty := by
  have h := (push_preflight_protocol [repoA, repoB, repoC]).1 (by decide)
  exact ⟨h.1, h.2.1, h.2.2 repoB (by decide) (by decide)⟩

/-! ### `workspace.get_repos` (C6) -/

/-- A filesystem oracle under which no directory contains `.git`. -/
def noGit : String → Bool := fun _ => false

/-- The identity path resolver. -/
def idResolve : String → String := fun s => s

/-- C6 counterexample: `get_repos` prepends the fixed entries
`("frontend", "frontend")` and `("backend", "backend")` without any `.git`
check, so on a filesystem with no `.git` directories at all it still returns
them — a returned pair whose resolved path contains no version-control
metadata directory, contradicting the claim that every returned pair does. -/
theorem get_repos_unchecked_fixed_entries :
    get_repos.frontendPair ∈ get_repos noGit idResolve [] ∧
    noGit (idResolve get_repos.frontendPair.2) = false := by
  exact ⟨by decide, rfl⟩

/-- C6 amended: the two fixed entries are prepended unconditionally and
without a `.git` check; every entry derived from the workspace descriptor's
`folders` list (the tail after the two fixed entries) has a resolved path
containing `.git`, and folders whose resolved path lacks one are silently
dropped (the tail is exactly the filtered-and-mapped folders list). -/
theorem get_repos_spec (hasGit : String → Bool) (resolve : String → String)
    (folders : List Folder) :
    get_repos hasGit resolve folders =
      get_repos.frontendPair :: get_repos.backendPair ::
        ((folders.filter fun f => hasGit (resolve f.path)).map fun f =>
          (f.name.getD (pathBasename (resolve f.path)), resolve f.path)) ∧
    ∀ e ∈ (get_repos hasGit resolve folders).drop 2, hasGit e.2 = true := by
  refine ⟨rfl, ?_⟩
  intro e he
  simp only [get_repos, List.cons_append, List.nil_append, List.drop_succ_cons,
    List.drop_zero] at he
  obtain ⟨f, hf, rfl⟩ := List.mem_map.mp he
  exact (List.mem_filter.mp hf).2

/-- The resolved path of the one git-managed folder. -/
def wApp1 : String := "/w/app1"

/-- The workspace-directory prefix for resolved paths. -/
def wPrefix : String := "/w/"

/-- A filesystem oracle where exactly `/w/app1` contains `.git`. -/
def oneGit : String → Bool := fun s => s = wApp1

/-- A resolver rooting relative paths at `/w/`. -/
def wResolve : String → String := fun s => wPrefix ++ s

/-- Folders of the C6 witness scenario: `app1` is git-managed, `app2` not. -/
def demoFolders : List Folder := [⟨"app1", none⟩, ⟨"app2", some ("Two")⟩]

/-- C6 witness: in a workspace where only `/w/app1` has a `.git` directory,
every folder-derived entry returned by `get_repos` has one. -/
theorem get_repos_spec_witness :
    oneGit ((("app1" : String), wApp1) : String × String).2 = true := by
  have h := (get_repos_spec oneGit wResolve demoFolders).2
  exact h (("app1" : String), wApp1) (by decide)

/-! ### `evaluate_excludes`: absent flags default to excluded (C7) -/

/-- C7: for every `_exclude` entry matching the single-negation pattern with
flag `flag` and guarded path `body`, and every answers map in which `flag` is
absent, `answers.get(flag, False)` evaluates false, so the stripped guarded
path is placed in the excluded set computed by `evaluate_excludes`. -/
theorem evaluate_excludes_absent_flag (excludeEntries : List String)
    (answers : List (String × Bool)) (entry flag body : String)
    (h1 : entry ∈ excludeEntries)
    (h2 : matchExclude entry = some (flag, body))
    (h3 : answers.lookup flag = none) :
    pyStripS body ∈ evaluate_excludes excludeEntries answers := by
  refine List.mem_filterMap.mpr ⟨entry, h1, ?_⟩
  simp [h2, h3]

/-- The `_exclude` entry guarding `app/extensions.py` behind `use_database`. -/
def dbEntry : String := "\x7b% if not use_database %\x7dapp/extensions.py\x7b% endif %\x7d"

/-- The flag name of `dbEntry`. -/
def dbFlag : String := "use_database"

/-- The guarded path of `dbEntry`. -/
def extPath : String := "app/extensions.py"

/-- C7 witness: with an empty answers map (so `use_database` is absent),
`app/extensions.py` lands in the excluded set. -/
theorem evaluate_excludes_absent_flag_witness :
    pyStripS extPath ∈ evaluate_excludes [dbEntry] [] :=
  evaluate_excludes_absent_flag [dbEntry] [] dbEntry dbFlag extPath (by decide)
    (by decide) (by decide)

/-! ### Drift detector: cross-category deduplication (C9) -/

/-- C9: a file that is both in the source-comparison divergence list and in
the post-adoption violation set is omitted from the pre-existing listing (and
hence from its count) and appears instead in the "also diverges from source"
note under the post-adoption section. -/
theorem diverged_violation_reported_once (tow : List TFile) (env : Env)
    (x : String) (h1 : x ∈ divergedFiles tow env)
    (h2 : x ∈ gitViolations tow env) :
    x ∉ preExisting tow env ∧ x ∈ alsoDiverged tow env := by
  constructor
  · intro hx
    have h := (List.mem_filter.mp hx).2
    simp only [Bool.not_eq_true', List.contains, List.elem_eq_mem,
      decide_eq_false_iff_not] at h
    exact h h2
  · refine List.mem_filter.mpr ⟨h1, ?_⟩
    simp only [List.contains, List.elem_eq_mem, decide_eq_true_eq]
    exact h2

/-- A single template-owned, non-Jinja file `a`. -/
def towBoth : List TFile := [⟨"a", "a", false⟩]

/-- Oracles under which `a` exists, was modified post-adoption, and also
differs from the template source. -/
def envBoth : Env := ⟨fun _ => some [1], fun _ => true, fun _ => [2]⟩

/-- C9 witness: the doubly-flagged file `a` is excluded from the pre-existing
list and noted as also diverged. -/
theorem diverged_violation_reported_once_witness :
    (("a" : String)) ∉ preExisting towBoth envBoth ∧
    (("a" : String)) ∈ alsoDiverged towBoth envBoth :=
  diverged_violation_reported_once towBoth envBoth ("a") (by decide) (by decide)

/-! ### Drift detector: exit code (C1) -/

/-- A template listing containing the single plain file `README.md`. -/
def readmeListing : List String := ["README.md"]

/-- Template-owned files of the C1 counterexample run. -/
def towMissing : List TFile := (classify_files readmeListing [] []).1

/-- Oracles under which no template-owned file exists in the app. -/
def envMissing : Env := ⟨fun _ => none, fun _ => false, fun _ => []⟩

/-- C1 counterexample: a run whose only template-owned file is missing from
the app has a non-empty missing list yet exits 0 — `had_findings` is never
set in the missing-files section of `main`, contradicting the claim that a
missing template-owned file alone forces a non-zero exit. -/
theorem exit_zero_despite_missing_file :
    missingFiles towMissing envMissing ≠ [] ∧
    gitViolations towMissing envMissing = [] ∧
    preExisting towMissing envMissing = [] ∧
    exitCode towMissing envMissing = 0 := by
  decide

/-- C1 amended: past the precondition checks, the exit code is non-zero if
and only if at least one post-adoption violation or pre-existing divergence
was found; missing template-owned files, like templated (Jinja) files that
merely cannot be verified, do not by themselves cause a non-zero exit. -/
theorem exitCode_nonzero_iff (tow : List TFile) (env : Env) :
    exitCode tow env ≠ 0 ↔
      (gitViolations tow env ≠ [] ∨ preExisting tow env ≠ []) := by
  simp only [exitCode, hadFindings]
  by_cases h1 : gitViolations tow env = [] <;>
    by_cases h2 : preExisting tow env = [] <;>
    simp [h1, h2, List.isEmpty_iff, List.isEmpty_eq_false]

/-! ### `get_template_version` (C10) -/

/-- Everything after the first colon of a line of the form
`"_commit:" ++ rest` is `rest` (the key itself contains no colon before its
final one). -/
theorem afterFirstColon_commitKey (rest : String) :
    afterFirstColon (commitKey ++ rest) = rest := by
  apply String.ext
  show ((commitKey ++ rest).data.dropWhile fun c => c ≠ ':').drop 1 = rest.data
  have h : commitKey.data = ['_', 'c', 'o', 'm', 'm', 'i', 't', ':'] := rfl
  rw [String.data_append, h]
  simp +decide [List.dropWhile]

/-- A string starting with `commitKey` passes the `startswith` test. -/
theorem strStartsWith_commitKey (rest : String) :
    strStartsWith (commitKey ++ rest) commitKey = true := by
  simp [strStartsWith, String.data_append]

/-- C10: `get_template_version` returns the whitespace-stripped text after
the first colon of the first answers-file line beginning with `"_commit:"`,
and returns `"unknown"` when no line begins with that prefix; being a total
function of the file content, it never raises. -/
theorem get_template_version_spec (content : String) :
    ((∀ l ∈ pySplitlines content, strStartsWith l commitKey = false) →
      get_template_version content = unknownVersion) ∧
    (∀ pre rest post,
      pySplitlines content = pre ++ (commitKey ++ rest) :: post →
      (∀ l ∈ pre, strStartsWith l commitKey = false) →
      get_template_version content = pyStripS rest) := by
  constructor
  · intro h
    unfold get_template_version
    rw [List.find?_eq_none.mpr fun x hx => by simp [h x hx]]
  · intro pre rest post hsplit hpre
    unfold get_template_version
    rw [hsplit, List.find?_append,
      List.find?_eq_none.mpr fun x hx => by simp [hpre x hx],
      Option.none_or,
      @List.find?_cons_of_pos String (fun l => strStartsWith l commitKey)
        (commitKey ++ rest) post (strStartsWith_commitKey rest)]
    show pyStripS (afterFirstColon (commitKey ++ rest)) = pyStripS rest
    rw [afterFirstColon_commitKey]

/-- Answers-file content for the C10 witness. -/
def answersContent : String := "name: app\n_commit: v1.2.3\nfoo: bar"

/-- The line before the `_commit:` line. -/
def nameLine : String := "name: app"

/-- The text after `"_commit:"` on its line. -/
def versionRest : String := " v1.2.3"

/-- The line after the `_commit:` line. -/
def fooLine : String := "foo: bar"

/-- C10 witness: on a three-line answers file, the recorded version is the
stripped text after the colon of the `_commit:` line. -/
theorem get_template_version_spec_witness :
    get_template_version answersContent = pyStripS versionRest :=
  (get_template_version_spec answersContent).2 [nameLine] versionRest [fooLine]
    (by decide) (by decide)

/-! ### Output-path suffix stripping (C5) -/

/-- A template source path that is `"a.jinja.jinja"`. -/
def doubleJinja : String := "a.jinja.jinja"

/-- C5 counterexample: for the source path `"a.jinja.jinja"`, the enumerator
strips exactly one copy of the suffix, so the computed output path
`"a.jinja"` still ends in the recognized template suffix — refuting the
claim's "never itself retains the suffix". -/
theorem enumerate_double_suffix :
    enumerate_template_files [doubleJinja] =
      [⟨dropJinja doubleJinja, doubleJinja, true⟩] ∧
    strEndsWith (dropJinja doubleJinja) jinjaSuffix = true := by
  decide

/-- Stripping the `.jinja` suffix from a path that ends in it removes exactly
that one trailing occurrence: appending the suffix back restores the source
path. -/
theorem dropJinja_append (s : String) (h : strEndsWith s jinjaSuffix = true) :
    dropJinja s ++ jinjaSuffix = s := by
  have hs : jinjaSuffix.data <:+ s.data := by
    simpa [strEndsWith] using h
  obtain ⟨t, ht⟩ := hs
  have hlen : s.data.length = t.length + 6 := by
    rw [← ht]; simp [jinjaSuffix]
  have hd : dropJinja s = ⟨t⟩ := by
    apply String.ext
    show s.data.take (s.data.length - 6) = t
    rw [hlen, Nat.add_sub_cancel, ← ht]
    exact List.take_left t _
  rw [hd]
  apply String.ext
  rw [String.data_append]
  exact ht

/-- C5 amended: an enumerated source path ending in the recognized template
suffix `".jinja"` yields the output path obtained by stripping that one
trailing suffix occurrence (appending the suffix back restores the source
path; a doubled suffix therefore leaves one copy in the output path); a
source path not ending in the suffix yields itself unchanged. -/
theorem enumerate_output_path (listing : List String) (rel : String)
    (hmem : rel ∈ listing)
    (hb2 : strContains rel openBrace2 = false)
    (hbp : strContains rel openBracePct = false) :
    (strEndsWith rel jinjaSuffix = true →
      TFile.mk (dropJinja rel) rel true ∈ enumerate_template_files listing ∧
      dropJinja rel ++ jinjaSuffix = rel) ∧
    (strEndsWith rel jinjaSuffix = false →
      TFile.mk rel rel false ∈ enumerate_template_files listing) := by
  constructor
  · intro hj
    refine ⟨List.mem_filterMap.mpr ⟨rel, hmem, ?_⟩, dropJinja_append rel hj⟩
    simp [hb2, hbp, hj, dropJinja]
  · intro hj
    refine List.mem_filterMap.mpr ⟨rel, hmem, ?_⟩
    simp [hb2, hbp, hj]

/-- A singly-suffixed template source path. -/
def singleJinja : String := "b.txt.jinja"

/-- C5 witness: `"b.txt.jinja"` is enumerated with output path
`"b.txt"` and round-trips by re-appending the suffix. -/
theorem enumerate_output_path_witness :
    TFile.mk (dropJinja singleJinja) singleJinja true ∈
      enumerate_template_files [singleJinja] ∧
    dropJinja singleJinja ++ jinjaSuffix = singleJinja := by
  have h := enumerate_output_path [singleJinja] singleJinja (by decide)
    (by decide) (by decide)
  exact h.1 (by decide)

/-! ### Classification: app-owned precedence (C8) and partition (C2) -/

/-- C8: an enumerated file whose output path is an exact member of the
`_skip_if_exists` set is classified app-owned — regardless of the excluded
set, so in particular even when the path is also an exact member of the
excluded set or matches an excluded entry as a prefix followed by `/` — and
it appears in neither the excluded-files result nor the template-owned
result. -/
theorem classify_skip_precedence (listing skip_if_exists excluded : List String)
    (f : TFile) (hf : f ∈ enumerate_template_files listing)
    (hs : skipHitP skip_if_exists f.out = true) :
    f.out ∈ (classify_files listing skip_if_exists excluded).2.1 ∧
    f.out ∉ (classify_files listing skip_if_exists excluded).2.2 ∧
    f.out ∉ (classify_files listing skip_if_exists excluded).1.map TFile.out := by
  refine ⟨List.mem_map.mpr ⟨f, List.mem_filter.mpr ⟨hf, hs⟩, rfl⟩, ?_, ?_⟩
  · intro hx
    obtain ⟨g, hg, hgout⟩ := List.mem_map.mp hx
    have hcond := (List.mem_filter.mp hg).2
    rw [hgout] at hcond
    simp [hs] at hcond
  · intro hx
    obtain ⟨g, hg, hgout⟩ := List.mem_map.mp hx
    have hcond := (List.mem_filter.mp hg).2
    rw [hgout] at hcond
    simp [hs] at hcond

/-- The output path `app/config.py` of the C8 scenario. -/
def appConfig : String := "app/config.py"

/-- The excluded-set entry `app`, of which `app/config.py` is a
prefix-with-separator match. -/
def appDirEntry : String := "app"

/-- C8 witness: with `_skip_if_exists = ["app/config.py"]` and the excluded
set containing the path prefix `app`, the file is classified app-owned and
nothing else. -/
theorem classify_skip_precedence_witness :
    appConfig ∈ (classify_files [appConfig] [appConfig] [appDirEntry]).2.1 ∧
    appConfig ∉ (classify_files [appConfig] [appConfig] [appDirEntry]).2.2 ∧
    appConfig ∉
      (classify_files [appConfig] [appConfig] [appDirEntry]).1.map TFile.out := by
  have h := classify_skip_precedence [appConfig] [appConfig] [appDirEntry]
    ⟨appConfig, appConfig, false⟩ (by decide) (by decide)
  exact h

/-- C2: for every template directory listing and every app-owned and excluded
set, the three collections returned by `classify_files` are pairwise disjoint
as sets of output paths, and their union is exactly the set of output paths
of all enumerated template files. -/
theorem classify_files_partition (listing skip_if_exists excluded : List String) :
    List.Disjoint ((classify_files listing skip_if_exists excluded).1.map TFile.out)
      (classify_files listing skip_if_exists excluded).2.1 ∧
    List.Disjoint ((classify_files listing skip_if_exists excluded).1.map TFile.out)
      (classify_files listing skip_if_exists excluded).2.2 ∧
    List.Disjoint (classify_files listing skip_if_exists excluded).2.1
      (classify_files listing skip_if_exists excluded).2.2 ∧
    ∀ x, x ∈ (enumerate_template_files listing).map TFile.out ↔
      (x ∈ (classify_files listing skip_if_exists excluded).1.map TFile.out ∨
        x ∈ (classify_files listing skip_if_exists excluded).2.1 ∨
        x ∈ (classify_files listing skip_if_exists excluded).2.2) := by
  refine ⟨?_, ?_, ?_, ?_⟩
  · intro x hx hy
    obtain ⟨f, hf, hfo⟩ := List.mem_map.mp hx
    obtain ⟨g, hg, hgo⟩ := List.mem_map.mp hy
    have h1 := (List.mem_filter.mp hf).2
    have h2 := (List.mem_filter.mp hg).2
    rw [hfo] at h1; rw [hgo] at h2
    simp only [Bool.and_eq_true, Bool.not_eq_true'] at h1
    rw [h2] at h1
    exact absurd h1.1 (by simp)
  · intro x hx hy
    obtain ⟨f, hf, hfo⟩ := List.mem_map.mp hx
    obtain ⟨g, hg, hgo⟩ := List.mem_map.mp hy
    have h1 := (List.mem_filter.mp hf).2
    have h2 := (List.mem_filter.mp hg).2
    rw [hfo] at h1; rw [hgo] at h2
    simp only [Bool.and_eq_true, Bool.not_eq_true'] at h1 h2
    rw [h2.2] at h1
    exact absurd h1.2 (by simp)
  · intro x hx hy
    obtain ⟨f, hf, hfo⟩ := List.mem_map.mp hx
    obtain ⟨g, hg, hgo⟩ := List.mem_map.mp hy
    have h1 := (List.mem_filter.mp hf).2
    have h2 := (List.mem_filter.mp hg).2
    rw [hfo] at h1; rw [hgo] at h2
    simp only [Bool.and_eq_true, Bool.not_eq_true'] at h2
    rw [h1] at h2
    exact absurd h2.1 (by simp)
  · intro x
    constructor
    · intro hx
      obtain ⟨f, hf, hfo⟩ := List.mem_map.mp hx
      by_cases hsk : skipHitP skip_if_exists f.out = true
      · exact Or.inr (Or.inl (List.mem_map.mpr ⟨f, List.mem_filter.mpr ⟨hf, hsk⟩, hfo⟩))
      · by_cases hex : exclHitP excluded f.out = true
        · refine Or.inr (Or.inr (List.mem_map.mpr ⟨f, List.mem_filter.mpr ⟨hf, ?_⟩, hfo⟩))
          simp [Bool.not_eq_true] at hsk
          simp [hsk, hex]
        · refine Or.inl (List.mem_map.mpr ⟨f, List.mem_filter.mpr ⟨hf, ?_⟩, hfo⟩)
          simp [Bool.not_eq_true] at hsk hex
          simp [hsk, hex]
    · intro hx
      rcases hx with hx | hx | hx <;>
      · obtain ⟨f, hf, hfo⟩ := List.mem_map.mp hx
        exact List.mem_map.mpr ⟨f, (List.mem_filter.mp hf).1, hfo⟩

/-- A demonstration listing for the C2 witness. -/
def demoListing : List String := ["app/config.py", "app/extensions.py", "README.md.jinja"]

/-- C2 witness: the partition equivalence instantiated on a concrete
classification, showing `app/extensions.py` enumerated and excluded. -/
theorem classify_files_partition_witness :
    extPath ∈ (classify_files demoListing [appConfig] [extPath]).2.2 ∧
    extPath ∈ (enumerate_template_files demoListing).map TFile.out := by
  have h := (classify_files_partition demoListing [appConfig] [extPath]).2.2.2 extPath
  exact ⟨by decide, h.mpr (Or.inr (Or.inr (by decide)))⟩

/-! ### Drift detector: summary counts (C3)

The five summary categories are shown to be the images of five filters of the
template-owned list by the (mutually exclusive) `category` function; the
count identities then follow by counting. -/

/-- A file categorized as pre-existing divergence exists in the app, is
unmodified since the baseline, and is not a Jinja template. -/
theorem category_preExist_elim {env : Env} {g : TFile}
    (h : category env g = DriftCat.preExist) :
    g.isJinja = false ∧ env.modified g.out = false ∧
      (env.appFile g.out).isSome = true := by
  unfold category at h
  cases happ : env.appFile g.out
  · rw [happ] at h
    simp at h
  · rw [happ] at h
    split_ifs at h
    all_goals simp_all

/-- The post-adoption violation list is the category-`postAdoption` slice. -/
theorem gitViolations_eq_catList (tow : List TFile) (env : Env) :
    gitViolations tow env = catList tow env DriftCat.postAdoption := by
  unfold gitViolations catList
  congr 1
  apply List.filter_congr
  intro f _
  cases happ : env.appFile f.out with
  | none => simp [category, fileExists, happ]
  | some c =>
    by_cases hm : env.modified f.out <;>
      by_cases hj : f.isJinja <;>
      by_cases he : c = env.tmpl f.src <;>
      simp [category, fileExists, happ, hm, hj, he]

/-- The missing-files list is the category-`missing` slice. -/
theorem missingFiles_eq_catList (tow : List TFile) (env : Env) :
    missingFiles tow env = catList tow env DriftCat.missing := by
  unfold missingFiles catList
  congr 1
  apply List.filter_congr
  intro f _
  cases happ : env.appFile f.out with
  | none => simp [category, fileExists, happ]
  | some c =>
    by_cases hm : env.modified f.out <;>
      by_cases hj : f.isJinja <;>
      by_cases he : c = env.tmpl f.src <;>
      simp [category, fileExists, happ, hm, hj, he]

/-- The byte-exact matching files are the category-`matchExact` slice. -/
theorem matchExactFiles_eq_catList (tow : List TFile) (env : Env) :
    matchExactFiles tow env = catList tow env DriftCat.matchExact := by
  unfold matchExactFiles catList
  congr 1
  apply List.filter_congr
  intro f _
  cases happ : env.appFile f.out with
  | none => simp [category, happ]
  | some c =>
    by_cases hm : env.modified f.out <;>
      by_cases hj : f.isJinja <;>
      by_cases he : c = env.tmpl f.src <;>
      simp [category, happ, hm, hj, he]

/-- The pre-existing divergence list is the category-`preExist` slice: a
diverged file that was also modified post-adoption is in the violation set
and filtered out, and one that was not modified is never in it. -/
theorem preExisting_eq_catList (tow : List TFile) (env : Env) :
    preExisting tow env = catList tow env DriftCat.preExist := by
  unfold preExisting divergedFiles catList
  rw [List.filter_map, List.filter_filter]
  congr 1
  apply List.filter_congr
  intro f hf
  cases happ : env.appFile f.out with
  | none => simp [category, srcDiffers, happ]
  | some c =>
    by_cases hm : env.modified f.out
    · have hmem : f.out ∈ gitViolations tow env :=
        List.mem_map.mpr ⟨f, List.mem_filter.mpr ⟨hf, by simp [fileExists, happ, hm]⟩, rfl⟩
      simp [category, srcDiffers, happ, hm, hmem, Function.comp]
    · have hnot : f.out ∉ gitViolations tow env := by
        intro hx
        obtain ⟨g, hg, hgo⟩ := List.mem_map.mp hx
        have hcond := (List.mem_filter.mp hg).2
        rw [hgo] at hcond
        simp [hm] at hcond
      by_cases hj : f.isJinja <;> by_cases he : c = env.tmpl f.src <;>
        simp [category, srcDiffers, happ, hm, hj, he, hnot, Function.comp]

/-- With pairwise-distinct output paths, the Jinja-needing-verification list
(of the summary) is the category-`jinjaOnly` slice: a Jinja file that exists
and was modified is in the violation set and filtered out, and an unmodified
one is in neither the violation set nor the missing set. -/
theorem jinjaOnlyList_eq_catList (tow : List TFile) (env : Env)
    (h : (tow.map TFile.out).Nodup) :
    jinjaOnlyList tow env = catList tow env DriftCat.jinjaOnly := by
  unfold jinjaOnlyList jinjaCompFiles catList
  rw [List.filter_map, List.filter_filter]
  congr 1
  apply List.filter_congr
  intro f hf
  cases happ : env.appFile f.out with
  | none => simp [category, fileExists, happ]
  | some c =>
    by_cases hm : env.modified f.out
    · have hmem : f.out ∈ violationFiles tow env := by
        unfold violationFiles
        rw [List.mem_dedup]
        exact List.mem_append_left _
          (List.mem_map.mpr ⟨f, List.mem_filter.mpr ⟨hf, by simp [fileExists, happ, hm]⟩, rfl⟩)
      simp [category, fileExists, happ, hm, hmem, Function.comp]
    · by_cases hj : f.isJinja
      · have hnv : f.out ∉ violationFiles tow env := by
          unfold violationFiles
          rw [List.mem_dedup, List.mem_append]
          rintro (hx | hx)
          · obtain ⟨g, hg, hgo⟩ := List.mem_map.mp hx
            have hcond := (List.mem_filter.mp hg).2
            rw [hgo] at hcond
            simp [hm] at hcond
          · rw [preExisting_eq_catList] at hx
            obtain ⟨g, hg, hgo⟩ := List.mem_map.mp hx
            have hg' := List.mem_filter.mp hg
            have hcat := of_decide_eq_true hg'.2
            have hfg : g = f := List.inj_on_of_nodup_map h hg'.1 hf hgo
            rw [hfg] at hcat
            have := (category_preExist_elim hcat).1
            rw [hj] at this
            exact Bool.true_eq_false.mp this
        have hnm : f.out ∉ missingSet tow env := by
          unfold missingSet
          rw [List.mem_dedup]
          intro hx
          obtain ⟨g, hg, hgo⟩ := List.mem_map.mp hx
          have hcond := (List.mem_filter.mp hg).2
          rw [hgo] at hcond
          simp [fileExists, happ] at hcond
        simp [category, fileExists, happ, hm, hj, hnv, hnm, Function.comp]
      · by_cases he : c = env.tmpl f.src <;>
          simp [category, fileExists, happ, hm, hj, he, Function.comp]

/-- The five category slices count up to the whole template-owned list. -/
theorem catList_length_sum (tow : List TFile) (env : Env) :
    (catList tow env DriftCat.matchExact).length +
    (catList tow env DriftCat.jinjaOnly).length +
    (catList tow env DriftCat.postAdoption).length +
    (catList tow env DriftCat.preExist).length +
    (catList tow env DriftCat.missing).length = tow.length := by
  unfold catList
  simp only [List.length_map, ← List.countP_eq_length_filter]
  induction tow with
  | nil => rfl
  | cons f rest ih =>
    simp only [List.countP_cons, List.length_cons]
    cases hc : category env f <;> simp [hc] <;> omega

/-- Each category slice inherits distinctness from the output paths. -/
theorem catList_nodup {tow : List TFile} (env : Env) (c : DriftCat)
    (h : (tow.map TFile.out).Nodup) : (catList tow env c).Nodup := by
  unfold catList
  exact ((List.filter_sublist tow).map TFile.out).nodup h

/-- Distinct category slices are disjoint when output paths are distinct. -/
theorem catList_disjoint {tow : List TFile} (env : Env) {c c' : DriftCat}
    (h : (tow.map TFile.out).Nodup) (hne : c ≠ c') :
    List.Disjoint (catList tow env c) (catList tow env c') := by
  intro x hx hy
  obtain ⟨f, hf, hfo⟩ := List.mem_map.mp hx
  obtain ⟨g, hg, hgo⟩ := List.mem_map.mp hy
  have hf' := List.mem_filter.mp hf
  have hg' := List.mem_filter.mp hg
  have hfg : f = g :=
    List.inj_on_of_nodup_map h hf'.1 hg'.1 (hfo.trans hgo.symm)
  apply hne
  have h1 : category env f = c := of_decide_eq_true hf'.2
  have h2 : category env g = c' := of_decide_eq_true hg'.2
  rw [← h1, hfg, h2]

/-- With distinct output paths, the violation set has exactly one member per
post-adoption violation and per pre-existing divergence. -/
theorem violationFiles_length {tow : List TFile} {env : Env}
    (h : (tow.map TFile.out).Nodup) :
    (violationFiles tow env).length =
      (gitViolations tow env).length + (preExisting tow env).length := by
  have h1 : (gitViolations tow env ++ preExisting tow env).Nodup := by
    rw [gitViolations_eq_catList, preExisting_eq_catList]
    exact (catList_nodup env _ h).append (catList_nodup env _ h)
      (catList_disjoint env h (by decide))
  unfold violationFiles
  rw [List.dedup_eq_self.mpr h1, List.length_append]

/-- With distinct output paths, the missing set has one member per missing
file. -/
theorem missingSet_length {tow : List TFile} {env : Env}
    (h : (tow.map TFile.out).Nodup) :
    (missingSet tow env).length = (missingFiles tow env).length := by
  unfold missingSet
  rw [List.dedup_eq_self.mpr]
  rw [missingFiles_eq_catList]
  exact catList_nodup env _ h

/-- The plain template source file name `foo`. -/
def fooName : String := "foo"

/-- The Jinja template source file name `foo.jinja`, whose output path
collides with `foo`. -/
def fooJinjaName : String := "foo.jinja"

/-- Template-owned files of a template containing both `foo` and
`foo.jinja`. -/
def towDup : List TFile := (classify_files [fooName, fooJinjaName] [] []).1

/-- Oracles under which the shared output path `foo` exists, was modified
post-adoption, and differs from the raw template source. -/
def envDup : Env := ⟨fun _ => some [1], fun _ => true, fun _ => [0]⟩

/-- C3 counterexample: when the template contains both `foo` and `foo.jinja`
(two template-owned entries with the same output path `foo`), the five
printed summary counts add up to 3 while there are only 2 template-owned
files — `foo` is counted twice under post-adoption and once more as matching
exactly — so the counts are neither mutually exclusive nor summing to the
total. -/
theorem summary_counts_break_on_duplicate_outputs :
    matchExactCount towDup envDup + jinjaOnlyCount towDup envDup +
      (gitViolations towDup envDup).length + (preExisting towDup envDup).length +
      (missingFiles towDup envDup).length = 3 ∧
    totalFiles towDup = 2 := by
  decide

/-- C3 amended: for every run whose template-owned files have pairwise
distinct output paths (true unless the template maps two sources, such as a
file and its `.jinja` variant, to one output), the five summary counts —
files matching exactly, templated files needing manual re-render
verification, post-adoption violations, pre-existing divergences, and
missing files — are counts of mutually exclusive (pairwise disjoint) file
classes and sum to the total number of template-owned files. -/
theorem summary_counts_partition (tow : List TFile) (env : Env)
    (h : (tow.map TFile.out).Nodup) :
    matchExactCount tow env = ((matchExactFiles tow env).length : Int) ∧
    ((matchExactFiles tow env).length : Int) + (jinjaOnlyCount tow env : Int) +
      ((gitViolations tow env).length : Int) + ((preExisting tow env).length : Int) +
      ((missingFiles tow env).length : Int) = (totalFiles tow : Int) ∧
    List.Pairwise List.Disjoint
      [matchExactFiles tow env, jinjaOnlyList tow env, gitViolations tow env,
        preExisting tow env, missingFiles tow env] := by
  have hsum := catList_length_sum tow env
  have hv := @violationFiles_length tow env h
  have hms := @missingSet_length tow env h
  have he := matchExactFiles_eq_catList tow env
  have hjo := jinjaOnlyList_eq_catList tow env h
  have hg := gitViolations_eq_catList tow env
  have hp := preExisting_eq_catList tow env
  have hm := missingFiles_eq_catList tow env
  have hsum' : (matchExactFiles tow env).length + (jinjaOnlyList tow env).length +
      (gitViolations tow env).length + (preExisting tow env).length +
      (missingFiles tow env).length = tow.length := by
    rw [he, hjo, hg, hp, hm]; exact hsum
  refine ⟨?_, ?_, ?_⟩
  · unfold matchExactCount cleanCount jinjaOnlyCount totalFiles
    rw [hv, hms]
    omega
  · unfold jinjaOnlyCount totalFiles
    omega
  · rw [he, hjo, hg, hp, hm]
    have D : ∀ c c' : DriftCat, c ≠ c' →
        List.Disjoint (catList tow env c) (catList tow env c') :=
      fun _ _ hcc => catList_disjoint env h hcc
    refine List.Pairwise.cons ?_ (List.Pairwise.cons ?_ (List.Pairwise.cons ?_
      (List.Pairwise.cons ?_ (List.pairwise_singleton _ _))))
    · intro a ha
      simp only [List.mem_cons, List.not_mem_nil, or_false] at ha
      rcases ha with rfl | rfl | rfl | rfl <;> exact D _ _ (by decide)
    · intro a ha
      simp only [List.mem_cons, List.not_mem_nil, or_false] at ha
      rcases ha with rfl | rfl | rfl <;> exact D _ _ (by decide)
    · intro a ha
      simp only [List.mem_cons, List.not_mem_nil, or_false] at ha
      rcases ha with rfl | rfl <;> exact D _ _ (by decide)
    · intro a ha
      simp only [List.mem_cons, List.not_mem_nil, or_false] at ha
      rcases ha with rfl
      exact D _ _ (by decide)

/-- A five-file demonstration listing with pairwise distinct output paths. -/
def demoFive : List String :=
  ["gone.txt", "jin.j.jinja", "match.txt", "pre.txt", "viol.txt"]

/-- Template-owned files of the C3 witness run. -/
def towFive : List TFile := (classify_files demoFive [] []).1

/-- The file missing from the app in the witness run. -/
def goneName : String := "gone.txt"

/-- The file that matches exactly in the witness run. -/
def matchName : String := "match.txt"

/-- The file modified post-adoption in the witness run. -/
def violName : String := "viol.txt"

/-- Oracles for the C3 witness run: `gone.txt` is missing, `viol.txt` was
modified post-adoption, `pre.txt` differs from source, `match.txt` matches,
and the Jinja-rendered `jin.j` exists. -/
def envFive : Env :=
  ⟨fun s => if s = goneName then none
    else if s = matchName then some [0] else some [1],
   fun s => s = violName,
   fun s => if s = matchName then [0] else [7]⟩

/-- C3 witness: on the five-file run the counts are 1 each, the first
summary count equals the number of exactly-matching files, the counts sum to
the total of 5, and the five classes are pairwise disjoint. -/
theorem summary_counts_partition_witness :
    (matchExactCount towFive envFive = ((matchExactFiles towFive envFive).length : Int) ∧
      ((matchExactFiles towFive envFive).length : Int) +
        (jinjaOnlyCount towFive envFive : Int) +
        ((gitViolations towFive envFive).length : Int) +
        ((preExisting towFive envFive).length : Int) +
        ((missingFiles towFive envFive).length : Int) = (totalFiles towFive : Int) ∧
      List.Pairwise List.Disjoint
        [matchExactFiles towFive envFive, jinjaOnlyList towFive envFive,
          gitViolations towFive envFive, preExisting towFive envFive,
          missingFiles towFive envFive]) ∧
    totalFiles towFive = 5 :=
  ⟨summary_counts_partition towFive envFive (by decide), by decide⟩

end ModernAppTemplate
